import Mathlib

/-!
Verification of the `simplecache` repository (src/simplecache.py): a
process-local TTL key/value cache for async producers.

The embedding models the two class-level dictionaries of the Python
`Cache` class (`_cache : Dict[str, Any]`, `_ttl : Dict[str, float]`) as
functions `String → Option _`, wall-clock instants and TTL durations as
rationals (`time.time()` returns a real-valued timestamp), and each
public operation (`add`, `get`, `invalidate`, `clear`, and one
invocation of the `wrapper` closure produced by the `Cache.cache`
decorator) as a pure state transformer.  The wrapper reads the clock
once on entry (Python line 74, `t = time.time()`), so a single rational
`t` parametrises an invocation; the awaited producer is modelled by its
outcome, an `Except ε α` (`Except.error` = the coroutine raised).  A
Python `KeyError` on the `cls._ttl[key]` subscript (possible in
principle when a key is present in `_cache` but missing from `_ttl`) is
modelled explicitly rather than assumed away.
-/

namespace Simplecache

/-- The two parallel class-level dictionaries of the Python `Cache`
class (simplecache.py lines 53-54): values by key and absolute expiry
instants by key. An absent key maps to `none`. -/
structure CacheState (α : Type) where
  _cache : String → Option α
  _ttl : String → Option ℚ

/-- The initial state: both dictionaries empty (`_cache = {}`,
`_ttl = {}`). -/
def emptyState {α : Type} : CacheState α :=
  ⟨fun _ => none, fun _ => none⟩

/-- Dictionary update `m[key] = v` on a map modelled as a function. -/
def setKey {β : Type} (m : String → Option β) (key : String) (v : β) :
    String → Option β :=
  fun k => if k = key then some v else m k

/-- The `KeyError` exception raised by a failed dictionary subscript. -/
inductive KeyError : Type
  | mk : KeyError

/-- `Cache.add` (simplecache.py lines 95-108): read the clock (`t`),
set `_cache[key] = value` and `_ttl[key] = t + ttl`. -/
def add {α : Type} (s : CacheState α) (key : String) (value : α)
    (ttl : ℚ) (t : ℚ) : CacheState α :=
  ⟨setKey s._cache key value, setKey s._ttl key (t + ttl)⟩

/-- `Cache.get` (simplecache.py lines 110-127): read the clock (`t`);
if `key in _cache` and `_ttl[key] > t`, return the stored value,
otherwise return `None` (modelled `none`).  When `key` is in `_cache`
but not in `_ttl`, the subscript `cls._ttl[key]` raises `KeyError`. -/
def get {α : Type} (s : CacheState α) (key : String) (t : ℚ) :
    Except KeyError (Option α) :=
  match s._cache key with
  | some v =>
    match s._ttl key with
    | some e => if e > t then Except.ok (some v) else Except.ok none
    | none => Except.error KeyError.mk
  | none => Except.ok none

/-- `Cache.invalidate` (simplecache.py lines 129-139): if `key in
_cache`, set `_ttl[key] = time.time() - 60`; otherwise do nothing. -/
def invalidate {α : Type} (s : CacheState α) (key : String) (t : ℚ) :
    CacheState α :=
  match s._cache key with
  | some _ => { s with _ttl := setKey s._ttl key (t - 60) }
  | none => s

/-- `Cache.clear` (simplecache.py lines 141-148): replace both
dictionaries with fresh empty ones. -/
def clear {α : Type} (_s : CacheState α) : CacheState α :=
  ⟨fun _ => none, fun _ => none⟩

/-- Outcome of one invocation of the wrapped producer: a normal return
value, a propagated producer exception, or an internal `KeyError` from
the `cls._ttl[key]` subscript on the hit-check path. -/
inductive WrapOut (ε α : Type) : Type
  | ok : α → WrapOut ε α
  | err : ε → WrapOut ε α
  | keyError : WrapOut ε α

/-- Result of one invocation of the wrapped producer: what it returned,
the cache state it left behind, and whether the underlying producer
`func` was awaited on this call. -/
structure WrapStep (ε α : Type) where
  out : WrapOut ε α
  state : CacheState α
  func_called : Bool

/-- The cache-miss tail of `wrapper` (simplecache.py lines 86-91):
`result = await func()`; on success set `_cache[key] = result` and
`_ttl[key] = t + ttl` (with `t` the instant read at wrapper entry) and
return `result`; a raising producer propagates with no store write. -/
def wrapperMiss {ε α : Type} (key : String) (ttl : ℚ) (s : CacheState α)
    (t : ℚ) (fres : Except ε α) : WrapStep ε α :=
  match fres with
  | Except.ok r =>
    ⟨WrapOut.ok r, ⟨setKey s._cache key r, setKey s._ttl key (t + ttl)⟩, true⟩
  | Except.error e => ⟨WrapOut.err e, s, true⟩

/-- One invocation of the `wrapper` closure built by `Cache.cache(key,
ttl, ignore, invalidate)` (simplecache.py lines 73-92).  `t` is the
single clock reading taken on entry (line 74); `fres` is the outcome the
producer `func` yields if awaited.  Branch order follows the source: the
invalidate branch (lines 76-79) when `invalidate` is set and `key in
_cache`; the hit check (lines 81-84) when `ignore` is unset and `key in
_cache`; otherwise the miss tail. -/
def wrapper {ε α : Type} (key : String) (ttl : ℚ)
    (ignore invalidate : Bool) (s : CacheState α) (t : ℚ)
    (fres : Except ε α) : WrapStep ε α :=
  match s._cache key, invalidate with
  | some _, true =>
    let s1 : CacheState α := { s with _ttl := setKey s._ttl key (t - 60) }
    match fres with
    | Except.ok r => ⟨WrapOut.ok r, s1, true⟩
    | Except.error e => ⟨WrapOut.err e, s1, true⟩
  | some v, false =>
    if ignore then wrapperMiss key ttl s t fres
    else
      match s._ttl key with
      | some e =>
        if e > t then ⟨WrapOut.ok v, s, false⟩
        else wrapperMiss key ttl s t fres
      | none => ⟨WrapOut.keyError, s, false⟩
  | none, _ => wrapperMiss key ttl s t fres

/-- The two dictionaries hold exactly the same set of keys. -/
def WF {α : Type} (s : CacheState α) : Prop :=
  ∀ k, (s._cache k).isSome ↔ (s._ttl k).isSome

/-- The producer was awaited on every path through the miss tail. -/
theorem wrapperMiss_func_called {ε α : Type} (key : String) (ttl : ℚ)
    (s : CacheState α) (t : ℚ) (fres : Except ε α) :
    (wrapperMiss key ttl s t fres).func_called = true := by
  cases fres <;> rfl

/-- Claim C3: for every key, value and TTL d > 0, `add` followed by an
immediate `get` returns the value; once the clock has advanced strictly
past the add time plus d, `get` returns not-found; and `get` reports a
value only when the stored expiry is strictly in the future relative to
the read time. -/
theorem C3_ttl_correctness {α : Type} (s : CacheState α) (k : String) (v : α)
    (d t0 t1 : ℚ) (hd : 0 < d) (h1 : t0 + d < t1) :
    get (add s k v d t0) k t0 = Except.ok (some v) ∧
    get (add s k v d t0) k t1 = Except.ok none ∧
    ∀ (s2 : CacheState α) (k2 : String) (t : ℚ) (w : α),
      get s2 k2 t = Except.ok (some w) →
      ∃ e, s2._ttl k2 = some e ∧ t < e := by
  refine ⟨?_, ?_, ?_⟩
  · have h : t0 + d > t0 := by linarith
    simp [get, add, setKey, h]
  · have h : ¬ (t0 + d > t1) := by linarith
    simp [get, add, setKey, h]
  · intro s2 k2 t w h
    cases hc : s2._cache k2 with
    | none => simp [get, hc] at h
    | some u =>
      cases he : s2._ttl k2 with
      | none => simp [get, hc, he] at h
      | some e =>
        simp [get, hc, he] at h
        split_ifs at h with hgt
        · exact ⟨e, rfl, hgt⟩
        · simp at h

/-- Concrete instance of C3: TTL 10 added at time 0 is readable at time
0 and gone at time 11. -/
theorem C3_witness :
    get (add (emptyState (α := ℕ)) "a" 5 10 0) "a" 0 = Except.ok (some 5) ∧
    get (add (emptyState (α := ℕ)) "a" 5 10 0) "a" 11 = Except.ok none :=
  ⟨(C3_ttl_correctness emptyState "a" 5 10 0 11 (by norm_num) (by norm_num)).1,
   (C3_ttl_correctness emptyState "a" 5 10 0 11 (by norm_num) (by norm_num)).2.1⟩

/-- Claim C8: `add` with a zero or negative TTL is accepted (it is a
total operation that stores the entry) and the stored expiry
`t0 + d` is not in the future, so `get` at any time at or after the add
time returns not-found. -/
theorem C8_nonpositive_ttl {α : Type} (s : CacheState α) (k : String) (v : α)
    (d t0 t1 : ℚ) (hd : d ≤ 0) (ht : t0 ≤ t1) :
    (add s k v d t0)._cache k = some v ∧
    (add s k v d t0)._ttl k = some (t0 + d) ∧
    t0 + d ≤ t0 ∧
    get (add s k v d t0) k t1 = Except.ok none := by
  refine ⟨by simp [add, setKey], by simp [add, setKey], by linarith, ?_⟩
  have h : ¬ (t0 + d > t1) := by linarith
  simp [get, add, setKey, h]

/-- Concrete instance of C8: a zero TTL entry added at time 5 is
already not-found at time 5. -/
theorem C8_witness :
    (add (emptyState (α := ℕ)) "a" 7 0 5)._cache "a" = some 7 ∧
    (add (emptyState (α := ℕ)) "a" 7 0 5)._ttl "a" = some (5 + 0) ∧
    (5 : ℚ) + 0 ≤ 5 ∧
    get (add (emptyState (α := ℕ)) "a" 7 0 5) "a" 5 = Except.ok none :=
  C8_nonpositive_ttl emptyState "a" 7 0 5 5 (by norm_num) (by norm_num)

/-- Claim C9: after `clear` both mappings are empty and `get` returns
not-found for every key at every time. -/
theorem C9_clear_semantics {α : Type} (s : CacheState α) (k : String) (t : ℚ) :
    (clear s)._cache = (fun _ => none) ∧
    (clear s)._ttl = (fun _ => none) ∧
    get (clear s) k t = Except.ok none :=
  ⟨rfl, rfl, rfl⟩

/-- Claim C4: `invalidate` on a present key rewrites its expiry to the
current time minus 60 without touching the value mapping or any other
key's expiry, so every later `get` of that key returns not-found;
`invalidate` on an absent key returns the state unchanged. -/
theorem C4_invalidate_semantics {α : Type} (s : CacheState α) (k k2 : String)
    (t0 t1 : ℚ) (hmono : t0 ≤ t1) :
    (∀ v, s._cache k = some v →
      (invalidate s k t0)._cache = s._cache ∧
      (invalidate s k t0)._ttl k = some (t0 - 60) ∧
      (∀ k3, k3 ≠ k → (invalidate s k t0)._ttl k3 = s._ttl k3) ∧
      get (invalidate s k t0) k t1 = Except.ok none) ∧
    (s._cache k2 = none → invalidate s k2 t0 = s) := by
  constructor
  · intro v hv
    refine ⟨?_, ?_, ?_, ?_⟩
    · simp [invalidate, hv]
    · simp [invalidate, hv, setKey]
    · intro k3 hk3
      simp [invalidate, hv, setKey, hk3]
    · have h : ¬ (t0 - 60 > t1) := by linarith
      simp [get, invalidate, hv, setKey, h]
  · intro h
    simp [invalidate, h]

/-- Concrete instance of C4: invalidating a live TTL-100 entry at time 1
makes it not-found at time 2; invalidating absent "b" changes nothing. -/
theorem C4_witness :
    get (invalidate (add (emptyState (α := ℕ)) "a" 5 100 0) "a" 1) "a" 2 =
      Except.ok none ∧
    invalidate (add (emptyState (α := ℕ)) "a" 5 100 0) "b" 1 =
      add (emptyState (α := ℕ)) "a" 5 100 0 :=
  ⟨(((C4_invalidate_semantics (add emptyState "a" 5 100 0) "a" "b" 1 2
      (by norm_num)).1) 5 (by simp [add, setKey])).2.2.2,
   ((C4_invalidate_semantics (add emptyState "a" 5 100 0) "a" "b" 1 2
      (by norm_num)).2) rfl⟩

/-- Every state one wrapper invocation can leave behind: unchanged, the
invalidate-branch expiry rewrite, or the miss-tail double write. -/
theorem wrapper_state_cases {ε α : Type} (key : String) (ttl : ℚ) (ig iv : Bool)
    (s : CacheState α) (t : ℚ) (fres : Except ε α) :
    (wrapper key ttl ig iv s t fres).state = s ∨
    ((s._cache key).isSome ∧
      (wrapper key ttl ig iv s t fres).state =
        { s with _ttl := setKey s._ttl key (t - 60) }) ∨
    (∃ r, fres = Except.ok r ∧
      (wrapper key ttl ig iv s t fres).state =
        ⟨setKey s._cache key r, setKey s._ttl key (t + ttl)⟩) := by
  cases hc : s._cache key with
  | none =>
    have hred : wrapper key ttl ig iv s t fres = wrapperMiss key ttl s t fres := by
      cases iv <;> simp [wrapper, hc]
    rw [hred]
    cases fres with
    | ok r => exact Or.inr (Or.inr ⟨r, rfl, rfl⟩)
    | error e => exact Or.inl rfl
  | some u =>
    cases iv with
    | true =>
      cases fres with
      | ok r => exact Or.inr (Or.inl ⟨by simp [hc], by simp [wrapper, hc]⟩)
      | error e => exact Or.inr (Or.inl ⟨by simp [hc], by simp [wrapper, hc]⟩)
    | false =>
      cases ig with
      | true =>
        cases fres with
        | ok r => exact Or.inr (Or.inr ⟨r, rfl, by simp [wrapper, hc, wrapperMiss]⟩)
        | error e => exact Or.inl (by simp [wrapper, hc, wrapperMiss])
      | false =>
        cases he : s._ttl key with
        | none => exact Or.inl (by simp [wrapper, hc, he])
        | some e =>
          by_cases hgt : e > t
          · exact Or.inl (by simp [wrapper, hc, he, hgt])
          · cases fres with
            | ok r =>
              exact Or.inr (Or.inr ⟨r, rfl, by simp [wrapper, hc, he, hgt, wrapperMiss]⟩)
            | error e2 => exact Or.inl (by simp [wrapper, hc, he, hgt, wrapperMiss])

/-- Claim C5: with `ignore` unset (and the preceding invalidate branch
not in play, per the spec's evaluation order) a wrapped call on a key
holding a valid entry returns exactly the cached value, leaves the state
unchanged and never awaits the producer; and on any call over a
well-formed state, whenever the producer is not awaited the call is
exactly the return-the-cached-value event, so exactly one of the two
happens per call. -/
theorem C5_hit_returns_cached {ε α : Type} (key : String) (ttl t : ℚ)
    (s : CacheState α) (fres : Except ε α) (v : α) (e : ℚ)
    (hWF : WF s) (hv : s._cache key = some v) (he : s._ttl key = some e)
    (hfresh : e > t) :
    ((wrapper key ttl false false s t fres).out = WrapOut.ok v ∧
     (wrapper key ttl false false s t fres).func_called = false ∧
     (wrapper key ttl false false s t fres).state = s) ∧
    ∀ (k2 : String) (ig iv : Bool) (fr : Except ε α),
      (wrapper k2 ttl ig iv s t fr).func_called = false →
      ∃ u, s._cache k2 = some u ∧
        (wrapper k2 ttl ig iv s t fr).out = WrapOut.ok u ∧
        (wrapper k2 ttl ig iv s t fr).state = s := by
  constructor
  · refine ⟨?_, ?_, ?_⟩ <;> simp [wrapper, hv, he, hfresh]
  · intro k2 ig iv fr hfc
    cases hc : s._cache k2 with
    | none =>
      exfalso
      have hm := wrapperMiss_func_called (ε := ε) k2 ttl s t fr
      cases iv <;> simp [wrapper, hc, hm] at hfc
    | some u =>
      cases iv with
      | true =>
        exfalso
        cases fr <;> simp [wrapper, hc] at hfc
      | false =>
        cases ig with
        | true =>
          exfalso
          simp [wrapper, hc, wrapperMiss_func_called] at hfc
        | false =>
          cases he2 : s._ttl k2 with
          | none =>
            exfalso
            have h1 : (s._cache k2).isSome := by simp [hc]
            have h2 := (hWF k2).mp h1
            simp [he2] at h2
          | some e2 =>
            by_cases hgt : e2 > t
            · exact ⟨u, rfl, by simp [wrapper, hc, he2, hgt],
                by simp [wrapper, hc, he2, hgt]⟩
            · exfalso
              simp [wrapper, hc, he2, hgt, wrapperMiss_func_called] at hfc

/-- Concrete instance of C5: a hit at time 1 on a TTL-10 entry added at
time 0 returns the cached 5 without awaiting the producer. -/
theorem C5_witness :
    (wrapper (ε := Unit) "a" 10 false false (add (emptyState (α := ℕ)) "a" 5 10 0)
        1 (Except.ok 9)).out = WrapOut.ok 5 ∧
    (wrapper (ε := Unit) "a" 10 false false (add (emptyState (α := ℕ)) "a" 5 10 0)
        1 (Except.ok 9)).func_called = false :=
  ⟨((C5_hit_returns_cached "a" 10 1 (add emptyState "a" 5 10 0) (Except.ok 9) 5
      (0 + 10) (by intro k; by_cases h : k = "a" <;> simp [add, setKey, emptyState, h])
      (by simp [add, setKey]) (by simp [add, setKey]) (by norm_num)).1).1,
   ((C5_hit_returns_cached "a" 10 1 (add emptyState "a" 5 10 0) (Except.ok 9) 5
      (0 + 10) (by intro k; by_cases h : k = "a" <;> simp [add, setKey, emptyState, h])
      (by simp [add, setKey]) (by simp [add, setKey]) (by norm_num)).1).2.1⟩

/-- Claim C6: the invalidate branch of a wrapped call on a present key
leaves exactly the state `invalidate` would (expiry of that key set to
the entry time minus 60), touches no other key and no value, awaits the
producer and returns its result. -/
theorem C6_invalidate_branch {ε α : Type} (key : String) (ttl t : ℚ) (ig : Bool)
    (s : CacheState α) (v r : α) (hv : s._cache key = some v) :
    (wrapper (ε := ε) key ttl ig true s t (Except.ok r)).state =
      invalidate s key t ∧
    (wrapper (ε := ε) key ttl ig true s t (Except.ok r)).state._cache =
      s._cache ∧
    (wrapper (ε := ε) key ttl ig true s t (Except.ok r)).state._ttl key =
      some (t - 60) ∧
    (∀ k2, k2 ≠ key →
      (wrapper (ε := ε) key ttl ig true s t (Except.ok r)).state._ttl k2 =
        s._ttl k2) ∧
    (wrapper (ε := ε) key ttl ig true s t (Except.ok r)).out = WrapOut.ok r ∧
    (wrapper (ε := ε) key ttl ig true s t (Except.ok r)).func_called = true := by
  refine ⟨?_, ?_, ?_, ?_, ?_, ?_⟩
  · simp [wrapper, invalidate, hv]
  · simp [wrapper, hv]
  · simp [wrapper, hv, setKey]
  · intro k2 hk2
    simp [wrapper, hv, setKey, hk2]
  · simp [wrapper, hv]
  · simp [wrapper, hv]

/-- Concrete instance of C6: the invalidate-variant call at time 1 on a
populated key rewrites its expiry to 1 - 60 and returns the fresh
producer result while keeping the stored value 5. -/
theorem C6_witness :
    (wrapper (ε := Unit) "a" 10 false true (add (emptyState (α := ℕ)) "a" 5 10 0)
        1 (Except.ok 9)).state._ttl "a" = some (1 - 60) ∧
    (wrapper (ε := Unit) "a" 10 false true (add (emptyState (α := ℕ)) "a" 5 10 0)
        1 (Except.ok 9)).state._cache =
      (add (emptyState (α := ℕ)) "a" 5 10 0)._cache ∧
    (wrapper (ε := Unit) "a" 10 false true (add (emptyState (α := ℕ)) "a" 5 10 0)
        1 (Except.ok 9)).out = WrapOut.ok 9 :=
  ⟨(C6_invalidate_branch "a" 10 1 false (add emptyState "a" 5 10 0) 5 9
      (by simp [add, setKey])).2.2.1,
   (C6_invalidate_branch "a" 10 1 false (add emptyState "a" 5 10 0) 5 9
      (by simp [add, setKey])).2.1,
   (C6_invalidate_branch "a" 10 1 false (add emptyState "a" 5 10 0) 5 9
      (by simp [add, setKey])).2.2.2.2.1⟩

/-- Claim C7: when a wrapped call awaits the producer and the producer
raises, the exception propagates unchanged as the call's outcome and
the value mapping is untouched. -/
theorem C7_producer_failure {ε α : Type} (key : String) (ttl t : ℚ)
    (ig iv : Bool) (s : CacheState α) (er : ε)
    (hcalled : (wrapper key ttl ig iv s t (Except.error er)).func_called = true) :
    (wrapper key ttl ig iv s t (Except.error er)).out = WrapOut.err er ∧
    (wrapper key ttl ig iv s t (Except.error er)).state._cache = s._cache := by
  cases hc : s._cache key with
  | none =>
    constructor <;> (cases iv <;> simp [wrapper, hc, wrapperMiss])
  | some u =>
    cases iv with
    | true => constructor <;> simp [wrapper, hc]
    | false =>
      cases ig with
      | true => constructor <;> simp [wrapper, hc, wrapperMiss]
      | false =>
        cases he : s._ttl key with
        | none => simp [wrapper, hc, he] at hcalled
        | some e =>
          by_cases hgt : e > t
          · simp [wrapper, hc, he, hgt] at hcalled
          · constructor <;> simp [wrapper, hc, he, hgt, wrapperMiss]

/-- Concrete instance of C7: a failing producer on a miss propagates
its error and writes nothing. -/
theorem C7_witness :
    (wrapper (ε := Unit) "a" 10 false false (emptyState (α := ℕ)) 0
        (Except.error ())).out = WrapOut.err () ∧
    (wrapper (ε := Unit) "a" 10 false false (emptyState (α := ℕ)) 0
        (Except.error ())).state._cache = (emptyState (α := ℕ))._cache :=
  C7_producer_failure "a" 10 0 false false emptyState () rfl

/-- Counterexample to claim C1 as stated: the very first call of an
invalidate-variant wrapped producer on a never-populated key (empty
store, key "a") takes the miss tail, stores the producer's result, and
leaves a valid cached entry readable by `get` right away — so such a
call does not leave the store for that key unchanged. -/
theorem C1_counterexample :
    (emptyState (α := ℕ))._cache "a" = none ∧
    (wrapper (ε := Unit) "a" 3600 false true emptyState 0
        (Except.ok 5)).state._cache "a" = some 5 ∧
    get ((wrapper (ε := Unit) "a" 3600 false true emptyState 0
        (Except.ok 5)).state) "a" 0 = Except.ok (some 5) := by
  refine ⟨rfl, rfl, ?_⟩
  norm_num [wrapper, wrapperMiss, get, setKey, emptyState]

/-- Claim C1 amended: on an absent key the invalidate-variant call does
not reach the invalidate branch at all — it takes the miss tail and
stores the result exactly as `add` at the entry time would.  Only once
the key holds an entry does every further call take the invalidate
branch: expiry forced to entry time minus 60, producer awaited, value
mapping untouched (so the stored value stays the one from the first
call and later reads miss). -/
theorem C1_invalidate_wrap_behaviour {ε α : Type} (key : String) (ttl t : ℚ)
    (ig : Bool) (s : CacheState α) (r : α) :
    (s._cache key = none →
      wrapper (ε := ε) key ttl ig true s t (Except.ok r) =
        ⟨WrapOut.ok r, add s key r ttl t, true⟩) ∧
    (∀ v, s._cache key = some v → ∀ fres : Except ε α,
      (wrapper key ttl ig true s t fres).state._cache = s._cache ∧
      (wrapper key ttl ig true s t fres).state._ttl key = some (t - 60) ∧
      (wrapper key ttl ig true s t fres).func_called = true) := by
  constructor
  · intro h
    simp [wrapper, h, wrapperMiss, add]
  · intro v hv fres
    refine ⟨?_, ?_, ?_⟩ <;> (cases fres <;> simp [wrapper, hv, setKey])

/-- Concrete instance of the amended C1: first invalidate-variant call
on empty-store key "a" equals an `add` of the result; the second call
(key now present) only rewrites the expiry to 1 - 60. -/
theorem C1_amended_witness :
    wrapper (ε := Unit) "a" 10 false true (emptyState (α := ℕ)) 0
        (Except.ok 5) = ⟨WrapOut.ok 5, add emptyState "a" 5 10 0, true⟩ ∧
    (wrapper (ε := Unit) "a" 10 false true (add (emptyState (α := ℕ)) "a" 5 10 0)
        1 (Except.ok 6)).state._ttl "a" = some (1 - 60) :=
  ⟨(C1_invalidate_wrap_behaviour "a" 10 0 false emptyState 5).1 rfl,
   ((C1_invalidate_wrap_behaviour "a" 10 1 false (add emptyState "a" 5 10 0) 6).2
      5 (by simp [add, setKey]) (Except.ok 6)).2.1⟩

/-- Counterexample to claim C2 as stated: a miss-path call entered at
time 0 whose producer completes at time 1 (returning 5, key "a",
TTL 10) does not leave the state `add` at the completion instant would
leave — the wrapper stores expiry 0 + 10 from its single clock reading
at entry, while `add` at completion time 1 would store 1 + 10. -/
theorem C2_counterexample :
    (wrapper (ε := Unit) "a" 10 false false (emptyState (α := ℕ)) 0
        (Except.ok 5)).state ≠ add (emptyState (α := ℕ)) "a" 5 10 1 := by
  intro h
  have h2 := congrArg (fun st => st._ttl "a") h
  norm_num [wrapper, wrapperMiss, add, setKey, emptyState] at h2

/-- Claim C2 amended: the state change of the miss path is equivalent
to `Add(key, result, ttl)` invoked at the time the wrapper read the
clock on entry — before the producer ran — so the stored expiry is
entry time plus ttl; this coincides with an `Add` at producer
completion only when the producer completes instantaneously. -/
theorem C2_miss_equals_add_at_entry {ε α : Type} (key : String) (ttl t : ℚ)
    (ig iv : Bool) (s : CacheState α) (r : α)
    (hinv : iv = true → s._cache key = none)
    (hmiss : ig = true ∨ s._cache key = none ∨
      ∃ e, s._ttl key = some e ∧ e ≤ t) :
    wrapper (ε := ε) key ttl ig iv s t (Except.ok r) =
      ⟨WrapOut.ok r, add s key r ttl t, true⟩ := by
  cases hc : s._cache key with
  | none => cases iv <;> simp [wrapper, hc, wrapperMiss, add]
  | some u =>
    cases iv with
    | true => rw [hinv rfl] at hc; exact absurd hc (by simp)
    | false =>
      cases ig with
      | true => simp [wrapper, hc, wrapperMiss, add]
      | false =>
        rcases hmiss with h | h | ⟨e, he, hle⟩
        · simp at h
        · rw [hc] at h; exact absurd h (by simp)
        · have hgt : ¬ (e > t) := not_lt.mpr hle
          simp [wrapper, hc, he, hgt, wrapperMiss, add]

/-- Concrete instance of the amended C2: an expired entry (TTL 0 added
at time 0) misses at time 1 and the call equals an `add` of the fresh
result at entry time 1. -/
theorem C2_amended_witness :
    wrapper (ε := Unit) "a" 10 false false (add (emptyState (α := ℕ)) "a" 5 0 0)
        1 (Except.ok 6) =
      ⟨WrapOut.ok 6, add (add (emptyState (α := ℕ)) "a" 5 0 0) "a" 6 10 1, true⟩ :=
  C2_miss_equals_add_at_entry "a" 10 1 false false (add emptyState "a" 5 0 0) 6
    (by intro h; exact absurd h (by simp))
    (Or.inr (Or.inr ⟨0 + 0, by simp [add, setKey], by norm_num⟩))

/-- Rewriting one key's expiry keeps the two dictionaries in sync when
that key is already present in the value dictionary. -/
theorem WF_setTTL {α : Type} (s : CacheState α) (key : String) (q : ℚ)
    (hWF : WF s) (hk : (s._cache key).isSome) :
    WF { s with _ttl := setKey s._ttl key q } := by
  intro k2
  by_cases h : k2 = key
  · subst h
    simpa [setKey] using hk
  · simpa [setKey, h] using hWF k2

/-- Writing the same key into both dictionaries keeps them in sync. -/
theorem WF_setBoth {α : Type} (s : CacheState α) (key : String) (v : α) (q : ℚ)
    (hWF : WF s) :
    WF (⟨setKey s._cache key v, setKey s._ttl key q⟩ : CacheState α) := by
  intro k2
  by_cases h : k2 = key
  · simp [setKey, h]
  · simpa [setKey, h] using hWF k2

/-- Claim C10: starting from any state whose two dictionaries hold the
same keys (the empty initial state qualifies), every operation — `add`,
`invalidate`, `clear`, `get` (pure) and any wrapper invocation —
preserves that sync; consequently the `_ttl[key]` subscript guarded by
a `key in _cache` check never raises: `get` never returns a `KeyError`
and no wrapper invocation ends in the `keyError` outcome. -/
theorem C10_sync_invariant {ε α : Type} (s : CacheState α) (hWF : WF s) :
    WF (emptyState (α := α)) ∧
    (∀ k v d t, WF (add s k v d t)) ∧
    (∀ k t, WF (invalidate s k t)) ∧
    WF (clear s) ∧
    (∀ key ttl ig iv t (fres : Except ε α),
      WF ((wrapper key ttl ig iv s t fres).state)) ∧
    (∀ k t, ∃ r, get s k t = Except.ok r) ∧
    (∀ key ttl ig iv t (fres : Except ε α),
      (wrapper key ttl ig iv s t fres).out ≠ WrapOut.keyError) := by
  refine ⟨?_, ?_, ?_, ?_, ?_, ?_, ?_⟩
  · intro k
    simp [emptyState]
  · intro k v d t
    exact WF_setBoth s k v (t + d) hWF
  · intro k t k2
    cases hc : s._cache k with
    | none => simpa [invalidate, hc] using hWF k2
    | some u =>
      have hred : invalidate s k t = { s with _ttl := setKey s._ttl k (t - 60) } := by
        simp [invalidate, hc]
      rw [hred]
      exact WF_setTTL s k (t - 60) hWF (by simp [hc]) k2
  · intro k
    simp [clear]
  · intro key ttl ig iv t fres
    rcases wrapper_state_cases key ttl ig iv s t fres with h | ⟨hk, h⟩ | ⟨r, _, h⟩
    · rw [h]; exact hWF
    · rw [h]; exact WF_setTTL s key (t - 60) hWF hk
    · rw [h]; exact WF_setBoth s key r (t + ttl) hWF
  · intro k t
    cases hc : s._cache k with
    | none => exact ⟨none, by simp [get, hc]⟩
    | some u =>
      cases he : s._ttl k with
      | none =>
        have h1 := (hWF k).mp (by simp [hc])
        simp [he] at h1
      | some e =>
        by_cases hgt : e > t
        · exact ⟨some u, by simp [get, hc, he, hgt]⟩
        · exact ⟨none, by simp [get, hc, he, hgt]⟩
  · intro key ttl ig iv t fres
    cases hc : s._cache key with
    | none =>
      have hred : wrapper key ttl ig iv s t fres = wrapperMiss key ttl s t fres := by
        cases iv <;> simp [wrapper, hc]
      rw [hred]
      cases fres <;> simp [wrapperMiss]
    | some u =>
      cases iv with
      | true => cases fres <;> simp [wrapper, hc]
      | false =>
        cases ig with
        | true => cases fres <;> simp [wrapper, hc, wrapperMiss]
        | false =>
          cases he : s._ttl key with
          | none =>
            have h1 := (hWF key).mp (by simp [hc])
            simp [he] at h1
          | some e =>
            by_cases hgt : e > t
            · simp [wrapper, hc, he, hgt]
            · cases fres <;> simp [wrapper, hc, he, hgt, wrapperMiss]

/-- Concrete instance of C10: the empty state is in sync, stays in
sync after an `add`, and `get` on it cannot raise. -/
theorem C10_witness :
    WF (add (emptyState (α := ℕ)) "a" 5 10 0) ∧
    (∃ r, get (emptyState (α := ℕ)) "a" 0 = Except.ok r) ∧
    (wrapper (ε := Unit) "a" 10 false false (emptyState (α := ℕ)) 0
        (Except.ok 5)).out ≠ WrapOut.keyError :=
  ⟨(C10_sync_invariant (ε := Unit) (emptyState (α := ℕ))
      (fun _ => Iff.rfl)).2.1 "a" 5 10 0,
   (C10_sync_invariant (ε := Unit) (emptyState (α := ℕ))
      (fun _ => Iff.rfl)).2.2.2.2.2.1 "a" 0,
   (C10_sync_invariant (ε := Unit) (emptyState (α := ℕ))
      (fun _ => Iff.rfl)).2.2.2.2.2.2 "a" 10 false false 0 (Except.ok 5)⟩

end Simplecache
